import Mathlib

/-!
Verification of `internal/providers/vault.go` (package `providers`).

The Go code is shallowly embedded as follows.

* `time.Time` and `time.Duration` are modelled as `Int` (nanoseconds);
  `time.Time.Add` is `+` and `time.Time.After` is strict `<` on the
  argument (Go's `t.After(u)` is `t` strictly after `u`).
* `map[string]string` (the `secrets` field) and `map[string]interface{}`
  (the data returned by vault) are modelled as association lists without
  a fixed iteration order being relevant: the only map iterations in the
  source (`fillUpSecrets`) are order-independent in their success/failure
  outcome, and the error returned names the first failing key in list
  order.
* An `interface{}` value from vault is either a string or some
  non-string value (`VaultVal`).
* The vault client `c.api` is modelled as an oracle `VaultAPI`, a
  function from a path to the outcome of `Logical().Read`: an error or
  the data mapping.  The repository's tests count the HTTP requests the
  provider issues; the embedding mirrors that instrumentation with a
  `readCount` field that `provide` increments once per read, exactly at
  the one place the source calls `c.api.Logical().Read`.
* `Retrieve` holds the provider's mutex (`c.Lock()`) for its whole body,
  so every concurrent execution of `Retrieve` calls is equivalent to
  running them sequentially in some order; concurrent behaviour is
  therefore modelled by sequential composition of the embedded
  `Retrieve`.
* Go's multiple return `(credentials.Value, error)` is a pair
  `CredValue × Option GoError`; `credentials.Value{}` is `credValueZero`.
-/

namespace GoofysVault

/-- An `interface\x7b\x7d` value in the mapping returned by vault: a string, or a
value of some other dynamic type (its identity is irrelevant to the code,
which only ever asks `secret.(string)`). -/
inductive VaultVal where
  | str (s : String)
  | nonString
deriving DecidableEq

/-- `map[string]interface\x7b\x7d`: the raw data mapping returned by vault. -/
abbrev DataMap := List (String × VaultVal)

/-- `map[string]string`: the provider's `secrets` field. -/
abbrev SecretsMap := List (String × String)

/-- `v, ok := data[k]` on a `map[string]interface\x7b\x7d`. -/
def dataGet (data : DataMap) (k : String) : Option VaultVal :=
  match data with
  | [] => none
  | (k', v) :: rest => if k' = k then some v else dataGet rest k

/-- `m[k]` on a `map[string]string` (a missing key yields the zero value `""`). -/
def secretsGet (m : SecretsMap) (k : String) : String :=
  match m with
  | [] => ""
  | (k', v) :: rest => if k' = k then v else secretsGet rest k

/-- `m[k] = v` on a `map[string]string`: replace the binding if the key is
present, otherwise add it. -/
def secretsSet (m : SecretsMap) (k : String) (v : String) : SecretsMap :=
  match m with
  | [] => [(k, v)]
  | (k', v') :: rest => if k' = k then (k, v) :: rest else (k', v') :: secretsSet rest k v

/-- The key set of a `map[string]string` (as the list of keys). -/
def secretsKeys (m : SecretsMap) : List String :=
  m.map Prod.fst

/-- The Go `error` values produced by the package. -/
inductive GoError where
  /-- `ErrSecrets = errors.New("There are no secrets we need for or they have wrong type")` -/
  | errSecrets
  /-- `ErrInitVault = errors.New("Cannot construct vault")` -/
  | errInitVault
  /-- `ErrConnectionToVault = errors.New("Cannot get into vault")` -/
  | errConnectionToVault
  /-- `fmt.Errorf("There is no secret with key: %v", key)` -/
  | noSecretWithKey (key : String)
  /-- `fmt.Errorf("Secret has wrong type key: %v", key)` -/
  | wrongTypeKey (key : String)
  /-- an error produced by the vault client itself (network, auth, ...) -/
  | clientError (msg : String)
deriving DecidableEq

/-- `VaultConfig` (`providers.go` / `vault_config.go`): immutable connection
and expiry configuration.  `client` (an `*http.Client`) carries no logic the
core reads, so it is omitted. -/
structure VaultConfig where
  expiredTime : Int
  token : String
  pathToSecrets : String
  accessVaultKey : String
  secretVaultKey : String
  url : String
deriving DecidableEq

/-- `credentials.Value` from `aws-sdk-go`. -/
structure CredValue where
  AccessKeyID : String
  SecretAccessKey : String
  SessionToken : String
  ProviderName : String
deriving DecidableEq

/-- `credentials.Value\x7b\x7d`, the zero value. -/
def credValueZero : CredValue :=
  { AccessKeyID := "", SecretAccessKey := "", SessionToken := "", ProviderName := "" }

/-- `const VaultProviderName = "VaultConfigProvider"` -/
def VaultProviderName : String := "VaultConfigProvider"

/-- The vault client as an oracle: for a path, the outcome of
`c.api.Logical().Read(path)` — an error, or the data mapping of the secret
(per the spec's SecretSource contract the read "returns an untyped
key→value mapping or an error"; a secret with no data is the empty
mapping). -/
structure VaultAPI where
  read : String → Except GoError DataMap

/-- `vaultConfigProvider`: the provider state guarded by its `sync.RWMutex`.
`readCount` is the instrumentation counter of vault reads (the tests'
`countCalls`); it is not a field of the Go struct and no embedded operation
ever consults it. -/
structure vaultConfigProvider where
  expairedFiredIn : Int
  cfg : VaultConfig
  secrets : SecretsMap
  readCount : Nat
deriving DecidableEq

/-- `initSecrets`: `c.secrets[c.cfg.accessVaultKey] = ""` then
`c.secrets[c.cfg.secretVaultKey] = ""`, starting from the empty map the
constructor made. -/
def initSecrets (cfg : VaultConfig) : SecretsMap :=
  secretsSet (secretsSet [] cfg.accessVaultKey "") cfg.secretVaultKey ""

/-- `NewVaultConfigProvider`: `clientOk` stands for whether
`api.NewClient` succeeded (an external outcome); `now` is `time.Now()` at
construction. -/
def NewVaultConfigProvider (cfg : VaultConfig) (clientOk : Bool) (now : Int) :
    Except GoError vaultConfigProvider :=
  if clientOk then
    Except.ok
      { expairedFiredIn := now + cfg.expiredTime
        cfg := cfg
        secrets := initSecrets cfg
        readCount := 0 }
  else
    Except.error GoError.errInitVault

/-- `provide`: one call to `c.api.Logical().Read(c.cfg.pathToSecrets)`,
returning its data or its error; the read counter ticks exactly here. -/
def provide (c : vaultConfigProvider) (api : VaultAPI) :
    vaultConfigProvider × Except GoError DataMap :=
  ({ c with readCount := c.readCount + 1 }, api.read c.cfg.pathToSecrets)

/-- First pass of `fillUpSecrets`: `for key := range c.secrets`, fail on a
key that is absent from `data` or whose value is not a string. -/
def checkSecrets (keys : List String) (data : DataMap) : Option GoError :=
  match keys with
  | [] => none
  | k :: rest =>
    match dataGet data k with
    | none => some (GoError.noSecretWithKey k)
    | some (VaultVal.str _) => checkSecrets rest data
    | some VaultVal.nonString => some (GoError.wrongTypeKey k)

/-- `data[key].(string)`: the type assertion of the second pass.  The first
pass has already guaranteed the value is a string; on any other input Go
would panic, which this total model never reaches from `fillUpSecrets`. -/
def assertString : Option VaultVal → String
  | some (VaultVal.str s) => s
  | _ => ""

/-- `fillUpSecrets`: two passes — validate every tracked key, then copy the
values in.  Returns the updated secrets map, or the first pass's error. -/
def fillUpSecrets (secrets : SecretsMap) (data : DataMap) :
    Except GoError SecretsMap :=
  match checkSecrets (secretsKeys secrets) data with
  | some e => Except.error e
  | none => Except.ok (secrets.map fun p => (p.1, assertString (dataGet data p.1)))

/-- `Retrieve`: under the exclusive lock, read from vault, validate and
merge, and on success advance the expiry clock to `now + expiredTime`
(`now` is `time.Now()` at the update point) and return the credentials
read back out of the freshly merged `secrets` map. -/
def Retrieve (c : vaultConfigProvider) (api : VaultAPI) (now : Int) :
    vaultConfigProvider × CredValue × Option GoError :=
  match provide c api with
  | (c₁, Except.error _) => (c₁, credValueZero, some GoError.errConnectionToVault)
  | (c₁, Except.ok data) =>
    match fillUpSecrets c₁.secrets data with
    | Except.error _ => (c₁, credValueZero, some GoError.errSecrets)
    | Except.ok newSecrets =>
      let c₂ : vaultConfigProvider :=
        { c₁ with
            secrets := newSecrets
            expairedFiredIn := now + c₁.cfg.expiredTime }
      (c₂,
       { AccessKeyID := secretsGet c₂.secrets c₂.cfg.accessVaultKey
         SecretAccessKey := secretsGet c₂.secrets c₂.cfg.secretVaultKey
         SessionToken := ""
         ProviderName := VaultProviderName },
       none)

/-- Sequential composition of `Retrieve` calls: because `Retrieve` holds the
provider's mutex for its entire body, any concurrent execution of the calls
is equivalent to this sequential run in some order.  Each element of
`calls` is the vault oracle seen by that call together with its
`time.Now()`. -/
def runRetrieves (p : vaultConfigProvider) : List (VaultAPI × Int) → vaultConfigProvider
  | [] => p
  | (api, t) :: rest => runRetrieves (Retrieve p api t).1 rest

/-- `t.After(u)` on `time.Time`. -/
def timeAfter (t u : Int) : Bool := u < t

/-- `IsExpired`: under the read lock, `time.Now().After(c.expairedFiredIn)`.
It takes the state immutably and returns only a boolean. -/
def IsExpired (c : vaultConfigProvider) (now : Int) : Bool :=
  if timeAfter now c.expairedFiredIn then true else false

/-- Whether a dynamic value looked up in the data mapping is present and
string-typed: the test performed by the first pass of `fillUpSecrets`. -/
def isStr : Option VaultVal → Bool
  | some (VaultVal.str _) => true
  | _ => false

/-! ### Helper lemmas about the map embeddings -/

theorem checkSecrets_eq_none_iff (keys : List String) (data : DataMap) :
    checkSecrets keys data = none ↔ ∀ k ∈ keys, isStr (dataGet data k) = true := by
  induction keys with
  | nil => simp [checkSecrets]
  | cons k rest ih =>
    cases h : dataGet data k with
    | none => simp [checkSecrets, h, isStr]
    | some v =>
      cases v with
      | str s => simp [checkSecrets, h, isStr, ih]
      | nonString => simp [checkSecrets, h, isStr]

theorem checkSecrets_eq_some_spec (keys : List String) (data : DataMap) (e : GoError)
    (h : checkSecrets keys data = some e) :
    ∃ k, k ∈ keys ∧
      ((e = GoError.noSecretWithKey k ∧ dataGet data k = none) ∨
       (e = GoError.wrongTypeKey k ∧ dataGet data k = some VaultVal.nonString)) := by
  induction keys with
  | nil => simp [checkSecrets] at h
  | cons k rest ih =>
    cases hd : dataGet data k with
    | none =>
      simp only [checkSecrets, hd] at h
      exact ⟨k, List.mem_cons_self _ _, Or.inl ⟨(Option.some_inj.mp h).symm, hd⟩⟩
    | some v =>
      cases v with
      | str s =>
        simp only [checkSecrets, hd] at h
        obtain ⟨k', hk', hcase⟩ := ih h
        exact ⟨k', List.mem_cons_of_mem _ hk', hcase⟩
      | nonString =>
        simp only [checkSecrets, hd] at h
        exact ⟨k, List.mem_cons_self _ _, Or.inr ⟨(Option.some_inj.mp h).symm, hd⟩⟩

theorem secretsKeys_nil : secretsKeys [] = [] := rfl

theorem secretsKeys_cons (p : String × String) (rest : SecretsMap) :
    secretsKeys (p :: rest) = p.1 :: secretsKeys rest := rfl

theorem secretsKeys_map_snd (m : SecretsMap) (f : String → String) :
    secretsKeys (m.map fun p => (p.1, f p.1)) = secretsKeys m := by
  induction m with
  | nil => rfl
  | cons p rest ih =>
    rw [List.map_cons, secretsKeys_cons, secretsKeys_cons, ih]

theorem secretsGet_map (m : SecretsMap) (f : String → String) (k : String)
    (hk : k ∈ secretsKeys m) :
    secretsGet (m.map fun p => (p.1, f p.1)) k = f k := by
  induction m with
  | nil => simp [secretsKeys_nil] at hk
  | cons p rest ih =>
    rw [secretsKeys_cons, List.mem_cons] at hk
    by_cases h : p.1 = k
    · simp [secretsGet, h]
    · rcases hk with h1 | h1
      · exact absurd h1.symm h
      · simpa [secretsGet, h] using ih h1

theorem secretsKeys_cons_pair (x y : String) (rest : SecretsMap) :
    secretsKeys ((x, y) :: rest) = x :: secretsKeys rest := rfl

theorem secretsSet_cons_eq (a b k v : String) (rest : SecretsMap) (h : a = k) :
    secretsSet ((a, b) :: rest) k v = (k, v) :: rest := by
  simp [secretsSet, h]

theorem secretsSet_cons_ne (a b k v : String) (rest : SecretsMap) (h : ¬a = k) :
    secretsSet ((a, b) :: rest) k v = (a, b) :: secretsSet rest k v := by
  simp [secretsSet, h]

theorem mem_secretsKeys_secretsSet (m : SecretsMap) (k k' : String) (v : String) :
    k ∈ secretsKeys (secretsSet m k' v) ↔ (k = k' ∨ k ∈ secretsKeys m) := by
  induction m with
  | nil =>
    rw [show secretsSet [] k' v = [(k', v)] from rfl, secretsKeys_cons_pair,
      secretsKeys_nil, List.mem_cons]
  | cons p rest ih =>
    obtain ⟨a, b⟩ := p
    by_cases h : a = k'
    · rw [secretsSet_cons_eq a b k' v rest h]
      subst h
      simp only [secretsKeys_cons_pair, List.mem_cons]
      tauto
    · rw [secretsSet_cons_ne a b k' v rest h]
      simp only [secretsKeys_cons_pair, List.mem_cons, ih]
      tauto

theorem mem_secretsKeys_initSecrets (cfg : VaultConfig) (k : String) :
    k ∈ secretsKeys (initSecrets cfg) ↔
      (k = cfg.accessVaultKey ∨ k = cfg.secretVaultKey) := by
  unfold initSecrets
  rw [mem_secretsKeys_secretsSet, mem_secretsKeys_secretsSet]
  simp only [secretsKeys_nil, List.not_mem_nil, or_false]
  tauto

theorem secretsGet_initSecrets (cfg : VaultConfig) :
    secretsGet (initSecrets cfg) cfg.accessVaultKey = "" ∧
    secretsGet (initSecrets cfg) cfg.secretVaultKey = "" := by
  unfold initSecrets secretsSet
  by_cases h : cfg.accessVaultKey = cfg.secretVaultKey <;>
    simp [secretsSet, secretsGet, h]

/-! ### Helper lemmas about `fillUpSecrets` and `Retrieve` -/

theorem fillUpSecrets_isOk_iff (secrets : SecretsMap) (data : DataMap) :
    (∃ s', fillUpSecrets secrets data = Except.ok s') ↔
      ∀ k ∈ secretsKeys secrets, isStr (dataGet data k) = true := by
  rw [← checkSecrets_eq_none_iff]
  cases h : checkSecrets (secretsKeys secrets) data <;> simp [fillUpSecrets, h]

theorem fillUpSecrets_ok_eq (secrets : SecretsMap) (data : DataMap) (s' : SecretsMap)
    (h : fillUpSecrets secrets data = Except.ok s') :
    s' = secrets.map fun p => (p.1, assertString (dataGet data p.1)) := by
  unfold fillUpSecrets at h
  cases hc : checkSecrets (secretsKeys secrets) data <;> rw [hc] at h <;>
    simp at h
  exact h.symm

theorem fillUpSecrets_error_eq (secrets : SecretsMap) (data : DataMap) (e : GoError)
    (h : fillUpSecrets secrets data = Except.error e) :
    checkSecrets (secretsKeys secrets) data = some e := by
  unfold fillUpSecrets at h
  cases hc : checkSecrets (secretsKeys secrets) data <;> rw [hc] at h <;>
    simp at h
  exact h ▸ rfl

theorem fillUpSecrets_ok_keys (secrets : SecretsMap) (data : DataMap) (s' : SecretsMap)
    (h : fillUpSecrets secrets data = Except.ok s') :
    secretsKeys s' = secretsKeys secrets := by
  rw [fillUpSecrets_ok_eq secrets data s' h]
  exact secretsKeys_map_snd secrets fun x => assertString (dataGet data x)

theorem Retrieve_read_error (c : vaultConfigProvider) (api : VaultAPI) (now : Int)
    (ge : GoError) (hr : api.read c.cfg.pathToSecrets = Except.error ge) :
    Retrieve c api now =
      ({ c with readCount := c.readCount + 1 }, credValueZero,
        some GoError.errConnectionToVault) := by
  unfold Retrieve provide
  rw [hr]

theorem Retrieve_fill_error (c : vaultConfigProvider) (api : VaultAPI) (now : Int)
    (data : DataMap) (e : GoError)
    (hr : api.read c.cfg.pathToSecrets = Except.ok data)
    (hf : fillUpSecrets c.secrets data = Except.error e) :
    Retrieve c api now =
      ({ c with readCount := c.readCount + 1 }, credValueZero,
        some GoError.errSecrets) := by
  unfold Retrieve provide
  rw [hr]
  simp only []
  rw [show ({ c with readCount := c.readCount + 1 } : vaultConfigProvider).secrets
        = c.secrets from rfl, hf]

theorem Retrieve_fill_ok (c : vaultConfigProvider) (api : VaultAPI) (now : Int)
    (data : DataMap) (s' : SecretsMap)
    (hr : api.read c.cfg.pathToSecrets = Except.ok data)
    (hf : fillUpSecrets c.secrets data = Except.ok s') :
    Retrieve c api now =
      ({ c with
           readCount := c.readCount + 1
           secrets := s'
           expairedFiredIn := now + c.cfg.expiredTime },
       { AccessKeyID := secretsGet s' c.cfg.accessVaultKey
         SecretAccessKey := secretsGet s' c.cfg.secretVaultKey
         SessionToken := ""
         ProviderName := VaultProviderName },
       none) := by
  unfold Retrieve provide
  rw [hr]
  simp only []
  rw [show ({ c with readCount := c.readCount + 1 } : vaultConfigProvider).secrets
        = c.secrets from rfl, hf]

theorem Retrieve_err_inv (c : vaultConfigProvider) (api : VaultAPI) (now : Int)
    (c' : vaultConfigProvider) (v : CredValue) (e : GoError)
    (h : Retrieve c api now = (c', v, some e)) :
    c' = { c with readCount := c.readCount + 1 } ∧ v = credValueZero ∧
      (e = GoError.errConnectionToVault ∨ e = GoError.errSecrets) := by
  cases hr : api.read c.cfg.pathToSecrets with
  | error ge =>
    rw [Retrieve_read_error c api now ge hr] at h
    simp only [Prod.mk.injEq, Option.some.injEq] at h
    obtain ⟨h1, h2, h3⟩ := h
    exact ⟨h1.symm, h2.symm, Or.inl h3.symm⟩
  | ok data =>
    cases hf : fillUpSecrets c.secrets data with
    | error fe =>
      rw [Retrieve_fill_error c api now data fe hr hf] at h
      simp only [Prod.mk.injEq, Option.some.injEq] at h
      obtain ⟨h1, h2, h3⟩ := h
      exact ⟨h1.symm, h2.symm, Or.inr h3.symm⟩
    | ok s' =>
      rw [Retrieve_fill_ok c api now data s' hr hf] at h
      simp only [Prod.mk.injEq] at h
      exact Option.noConfusion h.2.2

theorem Retrieve_ok_inv (c : vaultConfigProvider) (api : VaultAPI) (now : Int)
    (c' : vaultConfigProvider) (v : CredValue)
    (h : Retrieve c api now = (c', v, none)) :
    c'.cfg = c.cfg ∧
    c'.expairedFiredIn = now + c.cfg.expiredTime ∧
    c'.readCount = c.readCount + 1 ∧
    secretsKeys c'.secrets = secretsKeys c.secrets ∧
    fillUpSecrets c.secrets ((api.read c.cfg.pathToSecrets).toOption.getD []) =
      Except.ok c'.secrets ∧
    v = { AccessKeyID := secretsGet c'.secrets c.cfg.accessVaultKey
          SecretAccessKey := secretsGet c'.secrets c.cfg.secretVaultKey
          SessionToken := ""
          ProviderName := VaultProviderName } := by
  cases hr : api.read c.cfg.pathToSecrets with
  | error ge =>
    rw [Retrieve_read_error c api now ge hr] at h
    simp only [Prod.mk.injEq] at h
    exact Option.noConfusion h.2.2
  | ok data =>
    cases hf : fillUpSecrets c.secrets data with
    | error fe =>
      rw [Retrieve_fill_error c api now data fe hr hf] at h
      simp only [Prod.mk.injEq] at h
      exact Option.noConfusion h.2.2
    | ok s' =>
      rw [Retrieve_fill_ok c api now data s' hr hf] at h
      simp only [Prod.mk.injEq, and_true] at h
      obtain ⟨h1, h2⟩ := h
      subst h1
      refine ⟨rfl, rfl, rfl, ?_, ?_, h2.symm⟩
      · exact fillUpSecrets_ok_keys c.secrets data s' hf
      · simpa using hf

theorem Retrieve_keys (c : vaultConfigProvider) (api : VaultAPI) (now : Int) :
    secretsKeys (Retrieve c api now).1.secrets = secretsKeys c.secrets := by
  rcases h : Retrieve c api now with ⟨c', v, e⟩
  cases e with
  | none =>
    obtain ⟨-, -, -, hkeys, -, -⟩ := Retrieve_ok_inv c api now c' v h
    exact hkeys
  | some ge =>
    obtain ⟨h1, -, -⟩ := Retrieve_err_inv c api now c' v ge h
    subst h1
    rfl

theorem runRetrieves_keys (calls : List (VaultAPI × Int)) (p : vaultConfigProvider) :
    secretsKeys (runRetrieves p calls).secrets = secretsKeys p.secrets := by
  induction calls generalizing p with
  | nil => rfl
  | cons pr rest ih =>
    rcases pr with ⟨api, t⟩
    rw [runRetrieves, ih, Retrieve_keys]

/-! ### Concrete fixtures, mirroring the configuration and responses used by
the repository's tests -/

def sampleCfg : VaultConfig :=
  { expiredTime := 500000000
    token := "tok"
    pathToSecrets := "secret/creds"
    accessVaultKey := "aws_access_key_id"
    secretVaultKey := "aws_secret_access_key"
    url := "http://vault.local" }

def sampleData : DataMap :=
  [("aws_access_key_id", VaultVal.str "AKIA"),
   ("aws_secret_access_key", VaultVal.str "SECRET")]

/-- A reachable vault that always answers with valid data. -/
def sampleAPI : VaultAPI := ⟨fun _ => Except.ok sampleData⟩

/-- An unreachable vault: every read fails with a transport error. -/
def errAPI : VaultAPI := ⟨fun _ => Except.error (GoError.clientError "connection refused")⟩

/-- A reachable vault whose secret holds no data. -/
def emptyAPI : VaultAPI := ⟨fun _ => Except.ok []⟩

/-- The provider as built by `NewVaultConfigProvider sampleCfg true 0`. -/
def sampleProvider : vaultConfigProvider :=
  { expairedFiredIn := 500000000
    cfg := sampleCfg
    secrets := initSecrets sampleCfg
    readCount := 0 }

/-- The provider state after one successful `Retrieve` at time 100. -/
def sampleProvider1 : vaultConfigProvider :=
  { expairedFiredIn := 500000100
    cfg := sampleCfg
    secrets := [("aws_access_key_id", "AKIA"), ("aws_secret_access_key", "SECRET")]
    readCount := 1 }

/-- The credential value returned by that successful `Retrieve`. -/
def sampleValue1 : CredValue :=
  { AccessKeyID := "AKIA"
    SecretAccessKey := "SECRET"
    SessionToken := ""
    ProviderName := "VaultConfigProvider" }

/-! ### The claims -/

/-- C1: the claim says that for N ≥ 1 concurrent `Retrieve` calls with the
secret store reachable, exactly one read reaches the store.  Because
`Retrieve` holds the mutex for its whole body, N concurrent calls are
equivalent to N sequential calls; here two serialized calls against a
reachable, valid store both succeed and return the identical snapshot, yet
the store records 2 reads, not 1 — contradicting the claim (and the
repository's own test, which asserts `countCalls == 1` for 7 concurrent
callers). -/
theorem claim_C1_each_call_reads :
    (Retrieve sampleProvider sampleAPI 100).2.2 = none ∧
    (Retrieve (Retrieve sampleProvider sampleAPI 100).1 sampleAPI 200).2.2 = none ∧
    (Retrieve sampleProvider sampleAPI 100).2.1 =
      (Retrieve (Retrieve sampleProvider sampleAPI 100).1 sampleAPI 200).2.1 ∧
    (Retrieve (Retrieve sampleProvider sampleAPI 100).1 sampleAPI 200).1.readCount = 2 ∧
    ¬(Retrieve (Retrieve sampleProvider sampleAPI 100).1 sampleAPI 200).1.readCount = 1 := by
  decide

/-- C2: every failing `Retrieve` — whether the store read errored or the
returned mapping failed validation — leaves the secrets mapping and the
expiry timestamp exactly as they were before the call. -/
theorem claim_C2_failure_preserves_state (c : vaultConfigProvider) (api : VaultAPI)
    (now : Int) (c' : vaultConfigProvider) (v : CredValue) (e : GoError)
    (h : Retrieve c api now = (c', v, some e)) :
    c'.secrets = c.secrets ∧ c'.expairedFiredIn = c.expairedFiredIn := by
  obtain ⟨h1, -, -⟩ := Retrieve_err_inv c api now c' v e h
  subst h1
  exact ⟨rfl, rfl⟩

theorem claim_C2_witness :
    ({ sampleProvider with readCount := 1 } : vaultConfigProvider).secrets =
        sampleProvider.secrets ∧
    ({ sampleProvider with readCount := 1 } : vaultConfigProvider).expairedFiredIn =
        sampleProvider.expairedFiredIn :=
  claim_C2_failure_preserves_state sampleProvider errAPI 100
    { sampleProvider with readCount := 1 } credValueZero GoError.errConnectionToVault
    (by decide)

/-- C3: `fillUpSecrets` succeeds iff every currently-tracked logical key is
present in the raw mapping with a string-typed value; on success the result
keeps the key set and holds the copied-in values; on failure the error
names a missing or mis-typed tracked key. -/
theorem claim_C3_fillUpSecrets_spec (secrets : SecretsMap) (data : DataMap) :
    ((∃ s', fillUpSecrets secrets data = Except.ok s') ↔
      ∀ k ∈ secretsKeys secrets, isStr (dataGet data k) = true) ∧
    (∀ s', fillUpSecrets secrets data = Except.ok s' →
      secretsKeys s' = secretsKeys secrets ∧
      ∀ k w, k ∈ secretsKeys secrets → dataGet data k = some (VaultVal.str w) →
        secretsGet s' k = w) ∧
    (∀ e, fillUpSecrets secrets data = Except.error e →
      ∃ k, k ∈ secretsKeys secrets ∧
        ((e = GoError.noSecretWithKey k ∧ dataGet data k = none) ∨
         (e = GoError.wrongTypeKey k ∧ dataGet data k = some VaultVal.nonString))) := by
  refine ⟨fillUpSecrets_isOk_iff secrets data, ?_, ?_⟩
  · intro s' h
    refine ⟨fillUpSecrets_ok_keys secrets data s' h, ?_⟩
    intro k w hk hd
    rw [fillUpSecrets_ok_eq secrets data s' h]
    calc secretsGet (secrets.map fun p => (p.1, assertString (dataGet data p.1))) k
        = assertString (dataGet data k) :=
          secretsGet_map secrets (fun x => assertString (dataGet data x)) k hk
      _ = w := by rw [hd]; rfl
  · intro e h
    exact checkSecrets_eq_some_spec _ data e (fillUpSecrets_error_eq secrets data e h)

theorem claim_C3_witness :
    ∃ s', fillUpSecrets (initSecrets sampleCfg) sampleData = Except.ok s' :=
  (claim_C3_fillUpSecrets_spec (initSecrets sampleCfg) sampleData).1.mpr (by decide)

/-- C4: every successful `Retrieve` sets the expiry timestamp to
`now + expiredTime` (hence no earlier than now + TTL at call time, and
non-decreasing across successive successful refreshes), and returns the
access value, secret value and the fixed provider-name tag read from the
just-merged secrets mapping. -/
theorem claim_C4_success_expiry_and_value (c : vaultConfigProvider) (api : VaultAPI)
    (now : Int) (c' : vaultConfigProvider) (v : CredValue)
    (h : Retrieve c api now = (c', v, none)) :
    c'.expairedFiredIn = now + c.cfg.expiredTime ∧
    v.AccessKeyID = secretsGet c'.secrets c.cfg.accessVaultKey ∧
    v.SecretAccessKey = secretsGet c'.secrets c.cfg.secretVaultKey ∧
    v.ProviderName = VaultProviderName ∧
    (∀ api₂ now₂ c₂ v₂, now ≤ now₂ → Retrieve c' api₂ now₂ = (c₂, v₂, none) →
      c'.expairedFiredIn ≤ c₂.expairedFiredIn) := by
  obtain ⟨hcfg, hexp, -, -, -, hv⟩ := Retrieve_ok_inv c api now c' v h
  subst hv
  refine ⟨hexp, rfl, rfl, rfl, ?_⟩
  intro api₂ now₂ c₂ v₂ hle h₂
  obtain ⟨-, hexp₂, -, -, -, -⟩ := Retrieve_ok_inv c' api₂ now₂ c₂ v₂ h₂
  rw [hexp, hexp₂, hcfg]
  omega

theorem claim_C4_witness :
    sampleProvider1.expairedFiredIn = 100 + sampleProvider.cfg.expiredTime ∧
    sampleValue1.AccessKeyID =
      secretsGet sampleProvider1.secrets sampleProvider.cfg.accessVaultKey ∧
    sampleValue1.SecretAccessKey =
      secretsGet sampleProvider1.secrets sampleProvider.cfg.secretVaultKey ∧
    sampleValue1.ProviderName = VaultProviderName ∧
    (∀ api₂ now₂ c₂ v₂, (100 : Int) ≤ now₂ →
      Retrieve sampleProvider1 api₂ now₂ = (c₂, v₂, none) →
      sampleProvider1.expairedFiredIn ≤ c₂.expairedFiredIn) :=
  claim_C4_success_expiry_and_value sampleProvider sampleAPI 100 sampleProvider1
    sampleValue1 (by decide)

/-- C5: `IsExpired` returns true exactly when the current time is strictly
after the stored expiry timestamp; its embedding takes the provider state
immutably and returns only a boolean, so it mutates nothing and triggers no
refresh. -/
theorem claim_C5_isExpired_iff (c : vaultConfigProvider) (now : Int) :
    IsExpired c now = true ↔ c.expairedFiredIn < now := by
  simp [IsExpired, timeAfter]

/-- C6: after construction the key set of the secrets mapping is exactly
the two configured logical names, and it stays that way across any
sequence of `Retrieve` calls; `fillUpSecrets` never changes the key set on
a successful merge (and on failure the map is untouched altogether). -/
theorem claim_C6_key_set_invariant (cfg : VaultConfig) (clientOk : Bool) (now : Int)
    (p : vaultConfigProvider)
    (hp : NewVaultConfigProvider cfg clientOk now = Except.ok p)
    (calls : List (VaultAPI × Int)) (k : String) :
    (k ∈ secretsKeys (runRetrieves p calls).secrets ↔
      (k = cfg.accessVaultKey ∨ k = cfg.secretVaultKey)) ∧
    (∀ secrets data s', fillUpSecrets secrets data = Except.ok s' →
      secretsKeys s' = secretsKeys secrets) := by
  cases clientOk with
  | false => simp [NewVaultConfigProvider] at hp
  | true =>
    simp only [NewVaultConfigProvider, if_true, Except.ok.injEq] at hp
    subst hp
    refine ⟨?_, fun secrets data s' h => fillUpSecrets_ok_keys secrets data s' h⟩
    rw [runRetrieves_keys]
    exact mem_secretsKeys_initSecrets cfg k

theorem claim_C6_witness :
    ("aws_access_key_id" ∈
        secretsKeys (runRetrieves sampleProvider [(sampleAPI, 100)]).secrets ↔
      ("aws_access_key_id" = sampleCfg.accessVaultKey ∨
       "aws_access_key_id" = sampleCfg.secretVaultKey)) ∧
    (∀ secrets data s', fillUpSecrets secrets data = Except.ok s' →
      secretsKeys s' = secretsKeys secrets) :=
  claim_C6_key_set_invariant sampleCfg true 0 sampleProvider rfl
    [(sampleAPI, 100)] "aws_access_key_id"

/-- C7, counterexample: the claim says a failing `Retrieve` surfaces the
underlying failure verbatim.  On a store answering with an empty mapping,
the underlying validation failure names the missing key
(`There is no secret with key: aws_access_key_id`), but `Retrieve` returns
the fixed sentinel `ErrSecrets` instead — a different error, so the
underlying error is not propagated verbatim. -/
theorem claim_C7_counterexample :
    fillUpSecrets sampleProvider.secrets [] =
      Except.error (GoError.noSecretWithKey "aws_access_key_id") ∧
    Retrieve sampleProvider emptyAPI 100 =
      ({ sampleProvider with readCount := 1 }, credValueZero,
        some GoError.errSecrets) ∧
    GoError.noSecretWithKey "aws_access_key_id" ≠ GoError.errSecrets :=
  ⟨rfl, rfl, by decide⟩

/-- C7, amended: every failing `Retrieve` surfaces a fixed sentinel error
classifying the failure — `ErrConnectionToVault` when the store read
failed, `ErrSecrets` when the returned mapping failed validation — rather
than the underlying error verbatim; there is no retry within the call, no
suppression (an error is always returned), and no partial success (the
secrets mapping and expiry clock are untouched and the zero credential
value is returned). -/
theorem claim_C7_amended_sentinel_errors (c : vaultConfigProvider) (api : VaultAPI)
    (now : Int) (c' : vaultConfigProvider) (v : CredValue) (e : GoError)
    (h : Retrieve c api now = (c', v, some e)) :
    (e = GoError.errConnectionToVault ∨ e = GoError.errSecrets) ∧
    (∀ ge, api.read c.cfg.pathToSecrets = Except.error ge →
      e = GoError.errConnectionToVault) ∧
    (∀ data, api.read c.cfg.pathToSecrets = Except.ok data →
      e = GoError.errSecrets) ∧
    c'.secrets = c.secrets ∧ c'.expairedFiredIn = c.expairedFiredIn ∧
    v = credValueZero := by
  obtain ⟨h1, h2, h3⟩ := Retrieve_err_inv c api now c' v e h
  subst h1
  refine ⟨h3, ?_, ?_, rfl, rfl, h2⟩
  · intro ge hr
    rw [Retrieve_read_error c api now ge hr] at h
    simp only [Prod.mk.injEq, Option.some.injEq] at h
    exact h.2.2.symm
  · intro data hr
    cases hf : fillUpSecrets c.secrets data with
    | error fe =>
      rw [Retrieve_fill_error c api now data fe hr hf] at h
      simp only [Prod.mk.injEq, Option.some.injEq] at h
      exact h.2.2.symm
    | ok s' =>
      rw [Retrieve_fill_ok c api now data s' hr hf] at h
      simp only [Prod.mk.injEq] at h
      exact Option.noConfusion h.2.2

theorem claim_C7_amended_witness :
    (GoError.errConnectionToVault = GoError.errConnectionToVault ∨
      GoError.errConnectionToVault = GoError.errSecrets) ∧
    (∀ ge, errAPI.read sampleProvider.cfg.pathToSecrets = Except.error ge →
      GoError.errConnectionToVault = GoError.errConnectionToVault) ∧
    (∀ data, errAPI.read sampleProvider.cfg.pathToSecrets = Except.ok data →
      GoError.errConnectionToVault = GoError.errSecrets) ∧
    ({ sampleProvider with readCount := 1 } : vaultConfigProvider).secrets =
      sampleProvider.secrets ∧
    ({ sampleProvider with readCount := 1 } : vaultConfigProvider).expairedFiredIn =
      sampleProvider.expairedFiredIn ∧
    credValueZero = credValueZero :=
  claim_C7_amended_sentinel_errors sampleProvider errAPI 100
    { sampleProvider with readCount := 1 } credValueZero
    GoError.errConnectionToVault (by decide)

/-- C8: whenever `Retrieve` returns a non-nil error, the credential value
returned alongside it is the zero value — empty access key, empty secret
key, empty provider name — never the previously cached credentials. -/
theorem claim_C8_zero_value_on_error (c : vaultConfigProvider) (api : VaultAPI)
    (now : Int) (c' : vaultConfigProvider) (v : CredValue) (e : GoError)
    (h : Retrieve c api now = (c', v, some e)) :
    v = credValueZero ∧ v.AccessKeyID = "" ∧ v.SecretAccessKey = "" ∧
    v.ProviderName = "" := by
  obtain ⟨-, h2, -⟩ := Retrieve_err_inv c api now c' v e h
  subst h2
  exact ⟨rfl, rfl, rfl, rfl⟩

theorem claim_C8_witness :
    credValueZero = credValueZero ∧ credValueZero.AccessKeyID = "" ∧
    credValueZero.SecretAccessKey = "" ∧ credValueZero.ProviderName = "" :=
  claim_C8_zero_value_on_error sampleProvider errAPI 100
    { sampleProvider with readCount := 1 } credValueZero
    GoError.errConnectionToVault (by decide)

/-- C9: every `Retrieve` call performs exactly one read of the secret
store — the read counter always advances by one, with no short-circuit
returning cached credentials, even when `IsExpired` is false at the time
of the call. -/
theorem claim_C9_always_reads (c : vaultConfigProvider) (api : VaultAPI) (now : Int) :
    (Retrieve c api now).1.readCount = c.readCount + 1 ∧
    (IsExpired c now = false →
      (Retrieve c api now).1.readCount = c.readCount + 1) := by
  have hmain : (Retrieve c api now).1.readCount = c.readCount + 1 := by
    rcases h : Retrieve c api now with ⟨c', v, e⟩
    cases e with
    | none =>
      obtain ⟨-, -, hread, -, -, -⟩ := Retrieve_ok_inv c api now c' v h
      exact hread
    | some ge =>
      obtain ⟨h1, -, -⟩ := Retrieve_err_inv c api now c' v ge h
      subst h1
      rfl
  exact ⟨hmain, fun _ => hmain⟩

theorem claim_C9_witness :
    IsExpired sampleProvider 100 = false ∧
    ((Retrieve sampleProvider sampleAPI 100).1.readCount =
        sampleProvider.readCount + 1 ∧
     (IsExpired sampleProvider 100 = false →
       (Retrieve sampleProvider sampleAPI 100).1.readCount =
         sampleProvider.readCount + 1)) :=
  ⟨by decide, claim_C9_always_reads sampleProvider sampleAPI 100⟩

/-- C10: immediately after successful construction the expiry timestamp is
already `construction time + TTL`, both cached secret values are the empty
string, no read has happened yet, and `IsExpired` stays false up to a full
TTL after construction. -/
theorem claim_C10_fresh_provider_valid (cfg : VaultConfig) (now t : Int)
    (p : vaultConfigProvider)
    (hp : NewVaultConfigProvider cfg true now = Except.ok p)
    (ht : t ≤ now + cfg.expiredTime) :
    p.expairedFiredIn = now + cfg.expiredTime ∧
    secretsGet p.secrets cfg.accessVaultKey = "" ∧
    secretsGet p.secrets cfg.secretVaultKey = "" ∧
    p.readCount = 0 ∧
    IsExpired p t = false := by
  simp only [NewVaultConfigProvider, if_true, Except.ok.injEq] at hp
  subst hp
  refine ⟨rfl, (secretsGet_initSecrets cfg).1, (secretsGet_initSecrets cfg).2, rfl, ?_⟩
  simp only [IsExpired, timeAfter]
  have : ¬((now + cfg.expiredTime : Int) < t) := by omega
  simp [this]

theorem claim_C10_witness :
    sampleProvider.expairedFiredIn = 0 + sampleCfg.expiredTime ∧
    secretsGet sampleProvider.secrets sampleCfg.accessVaultKey = "" ∧
    secretsGet sampleProvider.secrets sampleCfg.secretVaultKey = "" ∧
    sampleProvider.readCount = 0 ∧
    IsExpired sampleProvider 400000000 = false :=
  claim_C10_fresh_provider_valid sampleCfg 0 400000000 sampleProvider rfl (by decide)

end GoofysVault
